import Mathlib

/-!
Shallow embedding of the Render Steam ID processing pipeline:
the queue stores (JSON files mapping owner to a list of id strings),
the ingestion endpoint, the Stage-A uniqueness checker, the Stage-B
filter worker and the Stage-C submitter, together with their retry
loops and break scheduling.
-/

/-- A queue store: the parsed JSON object mapping an owner (username)
to an ordered list of Steam ID strings.  JSON objects preserve key
insertion order, so we model them as association lists. -/
abbrev Store := List (String × List String)

/-- Reading a key of the parsed object (first matching entry). -/
def lookupStore : Store → String → Option (List String)
  | [], _ => none
  | p :: rest, key => if p.1 = key then some p.2 else lookupStore rest key

/-- Assigning a new value to an existing key of the object; the key keeps
its position, other entries are untouched. -/
def updateStore : Store → String → List String → Store
  | [], _, _ => []
  | p :: rest, key, v =>
    if p.1 = key then (key, v) :: rest else p :: updateStore rest key v

/-- The JS `delete data[username]` statement: the entry disappears,
remaining keys keep their order. -/
def eraseKey : Store → String → Store
  | [], _ => []
  | p :: rest, key => if p.1 = key then rest else p :: eraseKey rest key

/-- The reduction `Object.values(data).reduce((sum, ids) => sum + (ids?.length || 0), 0)`. -/
def totalIds (s : Store) : Nat := (s.map (fun p => p.2.length)).sum

/-- An item is present somewhere in a store. -/
def itemInStore (s : Store) (x : String) : Bool :=
  decide (∃ p ∈ s, x ∈ p.2)

/-- No item of `s` also occurs in `t`. -/
def storesDisjoint (s t : Store) : Bool :=
  decide (∀ p ∈ s, ∀ x ∈ p.2, itemInStore t x = false)

/-- Number of occurrences of `id` in the sequence of `owner`. -/
def occCount (s : Store) (owner id : String) : Nat :=
  ((lookupStore s owner).getD []).count id

/-- The queue-store invariant of the spec: every owner present in the
mapping has a non-empty, duplicate-free sequence. -/
def storeInv (s : Store) : Prop := ∀ p ∈ s, p.2 ≠ [] ∧ p.2.Nodup

instance (s : Store) : Decidable (storeInv s) := by
  unfold storeInv; infer_instance

/-! ### Ingestion endpoint (`POST /api/add-harvested-ids/` in main.js) -/

/-- Characters removed by the JS `String.prototype.trim`: the WhiteSpace
production (tab, VT, FF, space, NBSP, ZWNBSP and the Unicode
space-separator category) and the LineTerminator production (LF, CR, LS,
PS). -/
def jsWhitespaceChar (c : Char) : Bool :=
  c = ' ' || c = '\t' || c = '\n' || c = '\r' ||
  c = '\u000B' || c = '\u000C' || c = '\u00A0' || c = '\uFEFF' ||
  c = '\u1680' || ('\u2000' ≤ c && c ≤ '\u200A') ||
  c = '\u2028' || c = '\u2029' || c = '\u202F' || c = '\u205F' || c = '\u3000'

/-- The JS `String(steamId).trim()` call. -/
def jsTrim (s : String) : String :=
  String.mk (((s.data.dropWhile jsWhitespaceChar).reverse.dropWhile jsWhitespaceChar).reverse)

/-- The lexical format `/^\d\x7b17\x7d$/`: exactly 17 characters, digits only. -/
def is17Digits (s : String) : Bool :=
  s.data.length == 17 && s.data.all Char.isDigit

/-- Per-item validation of the endpoint: the trimmed string must match the
17-digit format. -/
def isValidSteamId (s : String) : Bool := is17Digits (jsTrim s)

/-- Scan of the submitted list of one owner for the first invalid id; the error
records the owner and the trimmed form of the offending id, as in the JS
message `Invalid Steam ID format: ...`. -/
def firstInvalidIn (owner : String) : List String → Option (String × String)
  | [] => none
  | id :: rest =>
    if isValidSteamId id then firstInvalidIn owner rest else some (owner, jsTrim id)

/-- Scan of the whole batch, owners in submission order. -/
def firstInvalid : List (String × List String) → Option (String × String)
  | [] => none
  | p :: rest =>
    match firstInvalidIn p.1 p.2 with
    | some e => some e
    | none => firstInvalid rest

/-- The expression `[...new Set([...existingIds, ...steamIdsStr])]`: keeps the first
occurrence of each id, in order. -/
def dedupKeepFirst (l : List String) : List String :=
  l.foldl (fun acc x => if x ∈ acc then acc else acc ++ [x]) []

/-- The merge loop of the endpoint: for each submitted owner, combine with
the existing ids through a `Set` when the owner already exists, otherwise
store the submitted list verbatim (no dedup on that path). -/
def mergeHarvested (store : Store) (data : List (String × List String)) : Store :=
  data.foldl (fun st p =>
    match lookupStore st p.1 with
    | some existing => updateStore st p.1 (dedupKeepFirst (existing ++ p.2))
    | none => st ++ [(p.1, p.2)]) store

/-- The whole endpoint: validate every id of the batch first and reject on
the first invalid one leaving the store untouched, otherwise merge and
report the number of ids received. -/
def addHarvestedIds (store : Store) (data : List (String × List String)) :
    Except (String × String) Nat × Store :=
  match firstInvalid data with
  | some e => (Except.error e, store)
  | none => (Except.ok (totalIds data), mergeHarvested store data)

/-! ### Stage A — uniqueness checker (`processUniquenessCheck`) -/

/-- Outcome of `callDjangoAPIWithRetries` as seen by the Stage-A run:
either every attempt failed (or the API reported `success: false`), or a
response carrying the `filtered_steamids` mapping arrived. -/
inductive DedupeOutcome where
  | apiFailure
  | apiSuccess (filtered : Store)

/-- One Stage-A run over the input store (steam_ids.json) and the output
store (steam_ids_unique.json).  `wB` and `wA` tell whether the two
`writeJsonFile` calls succeed.  Returns the post-run (input, output)
stores.  The output store is overwritten wholesale with the filtered
mapping; on a write failure of the non-empty filtered mapping the run
aborts and the input store is preserved; the input store is cleared at
the end (a failure of that final write only logs). -/
def processUniquenessCheck (inA B : Store) (out : DedupeOutcome) (wB wA : Bool) :
    Store × Store :=
  if totalIds inA = 0 then (inA, B)
  else
    match out with
    | DedupeOutcome.apiFailure => (inA, B)
    | DedupeOutcome.apiSuccess filtered =>
      if filtered.isEmpty = false then
        if wB then ((if wA then [] else inA), filtered)
        else (inA, B)
      else ((if wA then [] else inA), (if wB then [] else B))

/-- The sequence of (input store, output store) states a reader can
observe during one Stage-A run: the initial state, the state after the
output-file write completes, and the state after the input-file clear
completes. -/
def processUniquenessCheckTrace (inA B : Store) (out : DedupeOutcome) (wB wA : Bool) :
    List (Store × Store) :=
  if totalIds inA = 0 then [(inA, B)]
  else
    match out with
    | DedupeOutcome.apiFailure => [(inA, B)]
    | DedupeOutcome.apiSuccess filtered =>
      if filtered.isEmpty = false then
        if wB then
          [(inA, B), (inA, filtered), ((if wA then [] else inA), filtered)]
        else [(inA, B)]
      else
        [(inA, B), (inA, (if wB then [] else B)),
         ((if wA then [] else inA), (if wB then [] else B))]

/-! ### Stage B — filter service store operations (filter-service.js) -/

/-- The function getNextSteamID: scan the owners in order, take the first id of the
first owner with a non-empty list, delete the owner if its list became
empty, and persist.  Owners encountered with an empty list are skipped
(and kept). -/
def dequeueFront : Store → Option ((String × String) × Store)
  | [] => none
  | p :: rest =>
    match p.2 with
    | [] =>
      match dequeueFront rest with
      | none => none
      | some (r, rest2) => some (r, p :: rest2)
    | id :: tl =>
      some ((p.1, id), if tl.isEmpty then rest else (p.1, tl) :: rest)

/-- The store as left on disk by `getNextSteamID` (unchanged when the
store held no id). -/
def dequeueFrontStore (s : Store) : Store :=
  match dequeueFront s with
  | none => s
  | some pr => pr.2

/-- The function returnToQueue: unshift the id onto the front of the list of its owner,
creating the owner if absent.  No membership check is made. -/
def returnToQueue (s : Store) (username steamID : String) : Store :=
  match lookupStore s username with
  | some ids => updateStore s username (steamID :: ids)
  | none => s ++ [(username, [steamID])]

/-- The function addToFilteredIDs: append the id to the list of its owner in the filtered
store unless already present (no write in that case). -/
def addToFilteredIDs (s : Store) (username steamID : String) : Store :=
  match lookupStore s username with
  | some ids => if steamID ∈ ids then s else updateStore s username (ids ++ [steamID])
  | none => s ++ [(username, [steamID])]

/-- The function removeFromPendingIDs (submitter.js): splice out the first occurrence
of the id, deleting the owner when its list becomes empty. -/
def removeFromPendingIDs (s : Store) (username steamID : String) : Store :=
  match lookupStore s username with
  | some ids =>
    if steamID ∈ ids then
      if (ids.erase steamID).isEmpty then eraseKey s username
      else updateStore s username (ids.erase steamID)
    else s
  | none => s

/-- Routing outcome of `processSteamIDWithRetries` for one dequeued item,
as consumed by the `processQueue` loop body. -/
inductive ProcessOutcome where
  | failed (errMsg : String)
  | succeeded (passedChecks : Bool)

/-- The store mutations the `processQueue` loop body performs for one
item already removed from the Stage-B store: a failure returns it to the
head of the Stage-B sequence of its owner and leaves the Stage-C store alone;
a pass appends it to the Stage-C store; a definitive non-pass drops it. -/
def processItemStep (B C : Store) (username steamID : String) (outcome : ProcessOutcome) :
    Store × Store :=
  match outcome with
  | ProcessOutcome.failed _ => (returnToQueue B username steamID, C)
  | ProcessOutcome.succeeded true => (B, addToFilteredIDs C username steamID)
  | ProcessOutcome.succeeded false => (B, C)

/-! ### Stage B — profile classification (`checkProfile`, `fetchAndCheckProfile`) -/

/-- The record `profile.commendation` with each counter possibly absent (`|| 0`). -/
structure Commendation where
  cmd_friendly : Option Nat
  cmd_teaching : Option Nat
  cmd_leader : Option Nat
deriving DecidableEq

/-- The opaque profile record returned by the Game Coordinator; the
fields the predicate reads, each possibly absent. -/
structure Profile where
  medals : Option (List Nat)
  commendation : Option Commendation
deriving DecidableEq

/-- Result of `checkProfile`. -/
structure CheckResult where
  passedChecks : Bool
  filterReason : Option String
deriving DecidableEq

/-- The exclusion list of medal ids (verbatim from the source, including
the repeated 4552). -/
def unwantedMedals : List Nat :=
  [4960, 6111, 6112, 6123, 6126, 6129, 4918, 4555, 4759, 6101, 4687,
   6113, 6106, 6125, 4886, 4853, 4703, 4552, 960, 4959, 4762, 4919,
   4828, 4800, 4761, 4626, 4986, 4873, 6127, 6128, 4799, 4702, 909,
   4550, 6105, 4798, 4553, 4760, 4958, 6114, 4884, 4701, 4700, 6124,
   4885, 6130, 4690, 6115, 4691, 6131, 4887, 935, 912, 908, 902, 4552, 968,
   952, 946, 6034, 6117, 6116, 6120, 6109, 6104, 6108, 6118, 4623, 4851]

/-- The classification predicate, throwing on a missing profile. -/
def checkProfile (steamID64 : String) (profile : Option Profile) :
    Except String CheckResult :=
  match profile with
  | none => Except.error "No profile data received"
  | some pr =>
    let medals := pr.medals.getD []
    let commend := pr.commendation.getD { cmd_friendly := none, cmd_teaching := none, cmd_leader := none }
    let totalCommendations :=
      commend.cmd_friendly.getD 0 + commend.cmd_teaching.getD 0 + commend.cmd_leader.getD 0
    if 100 ≤ totalCommendations then
      Except.ok { passedChecks := false,
                  filterReason := some ("commendations over 100: " ++ toString totalCommendations ++ " for " ++ steamID64) }
    else if (874 ∈ medals : Bool) = false then
      Except.ok { passedChecks := false, filterReason := some "missing medal 874" }
    else if medals.length < 3 then
      Except.ok { passedChecks := false, filterReason := some "less than 3 medals" }
    else if medals.any (fun m => m ∈ unwantedMedals) then
      Except.ok { passedChecks := false, filterReason := some "has unwanted medal" }
    else Except.ok { passedChecks := true, filterReason := none }

/-- What the Game Coordinator call does within one attempt: either the
timeout fires first or the profile callback arrives. -/
inductive FetchOutcome where
  | timeout
  | response (profile : Option Profile)

/-- The function fetchAndCheckProfile as a transition on the consecutive-timeout
counter: the timeout handler increments the counter and rejects; the
profile callback zeroes the counter and then runs `checkProfile` (whose
own throw happens after the reset). -/
def fetchAndCheckProfile (consecutiveTimeouts : Nat) (outcome : FetchOutcome)
    (steamID64 : String) : Except String CheckResult × Nat :=
  match outcome with
  | FetchOutcome.timeout =>
    (Except.error ("Timeout fetching profile for " ++ steamID64), consecutiveTimeouts + 1)
  | FetchOutcome.response p =>
    match checkProfile steamID64 p with
    | Except.ok r => (Except.ok r, 0)
    | Except.error e => (Except.error e, 0)

/-! ### Retry loops (uniqueness-checker.js and submitter.js) -/

/-- Outcome of one `callDjangoAPI` attempt: a parsed 200 response, a
non-200 status with its body, a request error, or the request timeout. -/
inductive CallOutcome where
  | ok (resp : String)
  | httpError (status : Nat) (body : String)
  | netError (msg : String)
  | timeout
deriving DecidableEq

/-- The `for` loop of `callDjangoAPIWithRetries`: every failed attempt is
retried until the attempt budget runs out, whatever the failure was; a
success returns immediately.  Returns the response together with the
number of the attempt that succeeded, or `none` when all attempts failed
(the final `throw`). -/
def djangoRetryLoop (outcomes : Nat → CallOutcome) : Nat → Nat → Option (String × Nat)
  | 0, _ => none
  | fuel + 1, attempt =>
    match outcomes attempt with
    | CallOutcome.ok r => some (r, attempt)
    | _ => djangoRetryLoop outcomes fuel (attempt + 1)

/-- The function callDjangoAPIWithRetries with `maxRetries` attempts, numbered from 1;
`outcomes k` is what attempt `k` would produce. -/
def callDjangoAPIWithRetries (maxRetries : Nat) (outcomes : Nat → CallOutcome) :
    Option (String × Nat) :=
  djangoRetryLoop outcomes maxRetries 1

/-- Outcome of one `submitToAPI` attempt in submitter.js. -/
inductive SubmitOutcome where
  | accepted
  | httpError (status : Nat)
  | netError (msg : String)
  | timeout
deriving DecidableEq

/-- The `while` loop of `Submitter.processID`: success resolves and stops;
a 401 status breaks out of the loop without further attempts; every other
failure is retried until the attempt budget runs out.  Returns the number
of attempts made and whether the submission succeeded. -/
def processIDLoop (outcomes : Nat → SubmitOutcome) : Nat → Nat → Nat × Bool
  | 0, attempt => (attempt - 1, false)
  | fuel + 1, attempt =>
    match outcomes attempt with
    | SubmitOutcome.accepted => (attempt, true)
    | SubmitOutcome.httpError s =>
      if s = 401 then (attempt, false)
      else processIDLoop outcomes fuel (attempt + 1)
    | _ => processIDLoop outcomes fuel (attempt + 1)

/-- The method Submitter.processID with `maxRetries` immediate attempts. -/
def processID (maxRetries : Nat) (outcomes : Nat → SubmitOutcome) : Nat × Bool :=
  processIDLoop outcomes maxRetries 1

/-- Outcome of one `markSteamIdProcessed` call in filter-service.js: a
200 response with `success: true` (carrying `created`), a 200 response
with `success: false` (rethrown as an error), a non-200 status, a
request error, or the request timeout. -/
inductive MarkOutcome where
  | ok (created : Bool)
  | apiError (msg : String)
  | httpError (status : Nat) (body : String)
  | netError (msg : String)
  | timeout
deriving DecidableEq

/-- The `for` loop of `markSteamIdProcessedWithRetries`: a `success: true`
response returns `true` at once; every other outcome — a 401 status
included — is caught and retried until the attempt budget runs out, after
which the function returns `false`.  Also returns the number of attempts
made. -/
def markRetryLoop (outcomes : Nat → MarkOutcome) : Nat → Nat → Bool × Nat
  | 0, attempt => (false, attempt - 1)
  | fuel + 1, attempt =>
    match outcomes attempt with
    | MarkOutcome.ok _ => (true, attempt)
    | _ => markRetryLoop outcomes fuel (attempt + 1)

/-- The function markSteamIdProcessedWithRetries with `maxRetries`
attempts, numbered from 1. -/
def markSteamIdProcessedWithRetries (maxRetries : Nat) (outcomes : Nat → MarkOutcome) :
    Bool × Nat :=
  markRetryLoop outcomes maxRetries 1

/-- The `while` loop of `processSteamIDWithRetries` in filter-service.js:
each attempt runs `fetchAndCheckProfile` (threading the
consecutive-timeout counter); a successful result stops the loop, any
caught error — there is no inspection of the error, hence no
authentication short-circuit — is retried until the attempt budget runs
out.  Returns the result (none when every attempt failed), the number of
attempts made and the final counter. -/
def processSteamRetryLoop (sid : String) (outcomes : Nat → FetchOutcome) :
    Nat → Nat → Nat → Option CheckResult × Nat × Nat
  | 0, attempt, c => (none, attempt - 1, c)
  | fuel + 1, attempt, c =>
    match fetchAndCheckProfile c (outcomes attempt) sid with
    | (Except.ok r, c2) => (some r, attempt, c2)
    | (Except.error _, c2) => processSteamRetryLoop sid outcomes fuel (attempt + 1) c2

/-- The function processSteamIDWithRetries with `maxRetries` attempts,
starting from consecutive-timeout counter `c`. -/
def processSteamIDWithRetries (maxRetries : Nat) (sid : String)
    (outcomes : Nat → FetchOutcome) (c : Nat) : Option CheckResult × Nat × Nat :=
  processSteamRetryLoop sid outcomes maxRetries 1 c

/-! ### Stage B — break scheduling (`processQueue`, `takeScheduledBreak`) -/

/-- The break-related configuration of the filter service. -/
structure FilterConfig where
  breakDurationMin : ℚ
  breakDurationMax : ℚ
  requestsBeforeBreakMin : Nat
  requestsBeforeBreakMax : Nat
  maxConsecutiveTimeouts : Nat
  timeoutRecoveryBreak : ℚ

/-- The defaults of the `CONFIG` object in filter-service.js. -/
def defaultFilterConfig : FilterConfig :=
  { breakDurationMin := 15000, breakDurationMax := 45000,
    requestsBeforeBreakMin := 60, requestsBeforeBreakMax := 160,
    maxConsecutiveTimeouts := 5, timeoutRecoveryBreak := 300000 }

/-- The mutable counters of the worker that the loop head reads. -/
structure WorkerCounters where
  requestCount : Nat
  nextBreakAfter : Nat
  consecutiveTimeouts : Nat

/-- The function calculateNextBreakPoint: `MIN + Math.floor(Math.random() * (MAX - MIN))`,
with `r` standing for the `Math.random()` draw. -/
def calculateNextBreakPoint (cfg : FilterConfig) (r : ℚ) : Nat :=
  cfg.requestsBeforeBreakMin +
    (⌊r * ((cfg.requestsBeforeBreakMax : ℚ) - (cfg.requestsBeforeBreakMin : ℚ))⌋).toNat

/-- The function getRandomDelay: `min + Math.random() * (max - min)`. -/
def getRandomDelay (lo hi r : ℚ) : ℚ := lo + r * (hi - lo)

/-- The function takeScheduledBreak: sleep a random break duration, then set
`nextBreakAfter = requestCount + calculateNextBreakPoint()`.  Returns the
slept duration and the updated counters. -/
def takeScheduledBreak (cfg : FilterConfig) (st : WorkerCounters) (r1 r2 : ℚ) :
    ℚ × WorkerCounters :=
  (getRandomDelay cfg.breakDurationMin cfg.breakDurationMax r1,
   { st with nextBreakAfter := st.requestCount + calculateNextBreakPoint cfg r2 })

/-- The externally visible actions at the head of one `processQueue`
iteration. -/
inductive WorkerAction where
  | scheduledBreakSleep (ms : ℚ)
  | recoveryBreakSleep (ms : ℚ)
  | dequeueNext
deriving DecidableEq

/-- The head of one `processQueue` iteration: the scheduled-break check
(`requestCount >= nextBreakAfter`), then the timeout-recovery check, then
the `getNextSteamID` call.  Returns the actions in order together with
the updated counters. -/
def processQueueIterationHead (cfg : FilterConfig) (st : WorkerCounters) (r1 r2 : ℚ) :
    List WorkerAction × WorkerCounters :=
  let br := if st.nextBreakAfter ≤ st.requestCount then
      (let pr := takeScheduledBreak cfg st r1 r2
       ([WorkerAction.scheduledBreakSleep pr.1], pr.2))
    else ([], st)
  let rec2 := if cfg.maxConsecutiveTimeouts ≤ br.2.consecutiveTimeouts then
      ([WorkerAction.recoveryBreakSleep cfg.timeoutRecoveryBreak],
       { br.2 with consecutiveTimeouts := 0 })
    else ([], br.2)
  (br.1 ++ rec2.1 ++ [WorkerAction.dequeueNext], rec2.2)

/-! ### Concrete attempt-outcome schedules used in counterexamples -/

/-- An attempt schedule for the Stage-A dedup call: the first attempt
comes back with HTTP status 401 (an authentication failure), the second
with a parsed 200 response. -/
def cexDjangoOutcomes : Nat → CallOutcome
  | 1 => CallOutcome.httpError 401 "Invalid API key"
  | 2 => CallOutcome.ok "resp"
  | _ => CallOutcome.timeout

/-- An attempt schedule for the Stage-C sink call: the first attempt
comes back with HTTP status 401. -/
def cexSubmitOutcomes : Nat → SubmitOutcome
  | 1 => SubmitOutcome.httpError 401
  | _ => SubmitOutcome.accepted

/-- An attempt schedule for the Stage-B classification call: the first
attempt times out, the second receives a profile that passes the
predicate. -/
def cexFetchOutcomes : Nat → FetchOutcome
  | 1 => FetchOutcome.timeout
  | _ => FetchOutcome.response (some
      { medals := some [874, 900, 901],
        commendation := some { cmd_friendly := some 0, cmd_teaching := some 0,
                               cmd_leader := some 0 } })

/-- An attempt schedule for the Stage-B mark-processed call: the first
attempt comes back with HTTP status 401, the second succeeds. -/
def cexMarkOutcomes : Nat → MarkOutcome
  | 1 => MarkOutcome.httpError 401 "Invalid API key"
  | _ => MarkOutcome.ok true

/-! ### Helper lemmas about the store primitives -/

theorem mem_updateStore {s : Store} {k : String} {v : List String} {p : String × List String}
    (h : p ∈ updateStore s k v) : p ∈ s ∨ p = (k, v) := by
  induction s with
  | nil => simp [updateStore] at h
  | cons q rest ih =>
    by_cases hq : q.1 = k
    · simp [updateStore, hq] at h
      rcases h with h | h
      · right; exact h
      · left; exact List.mem_cons_of_mem _ h
    · simp [updateStore, hq] at h
      rcases h with h | h
      · left; simp [h]
      · rcases ih h with h2 | h2
        · left; exact List.mem_cons_of_mem _ h2
        · right; exact h2

theorem lookupStore_mem {s : Store} {k : String} {v : List String}
    (h : lookupStore s k = some v) : (k, v) ∈ s := by
  induction s with
  | nil => simp [lookupStore] at h
  | cons q rest ih =>
    by_cases hq : q.1 = k
    · simp [lookupStore, hq] at h
      have hqe : q = (k, v) := by
        cases q
        simp_all
      rw [hqe]
      exact List.mem_cons_self _ _
    · simp [lookupStore, hq] at h
      exact List.mem_cons_of_mem _ (ih h)

theorem lookupStore_updateStore_self {s : Store} {k : String} {w : List String}
    (h : lookupStore s k = some w) (v : List String) :
    lookupStore (updateStore s k v) k = some v := by
  induction s with
  | nil => simp [lookupStore] at h
  | cons q rest ih =>
    by_cases hq : q.1 = k
    · simp [updateStore, hq, lookupStore]
    · simp [lookupStore, hq] at h
      simp [updateStore, hq, lookupStore, ih h]

theorem lookupStore_append_of_none {s : Store} {k : String}
    (h : lookupStore s k = none) (t : Store) :
    lookupStore (s ++ t) k = lookupStore t k := by
  induction s with
  | nil => simp
  | cons q rest ih =>
    by_cases hq : q.1 = k
    · simp [lookupStore, hq] at h
    · simp [lookupStore, hq] at h ⊢
      exact ih h

theorem mem_eraseKey {s : Store} {k : String} {p : String × List String}
    (h : p ∈ eraseKey s k) : p ∈ s := by
  induction s with
  | nil => simp [eraseKey] at h
  | cons q rest ih =>
    by_cases hq : q.1 = k
    · simp [eraseKey, hq] at h
      exact List.mem_cons_of_mem _ h
    · simp [eraseKey, hq] at h
      rcases h with h | h
      · simp [h]
      · exact List.mem_cons_of_mem _ (ih h)

theorem storeInv_updateStore {s : Store} {k : String} {v : List String}
    (hs : storeInv s) (hne : v ≠ []) (hnd : v.Nodup) : storeInv (updateStore s k v) := by
  intro p hp
  rcases mem_updateStore hp with h | h
  · exact hs p h
  · rw [h]; exact ⟨hne, hnd⟩

theorem storeInv_eraseKey {s : Store} {k : String} (hs : storeInv s) :
    storeInv (eraseKey s k) :=
  fun p hp => hs p (mem_eraseKey hp)

/-! ### Dedup lemmas -/

theorem mem_dedupAux (l : List String) :
    ∀ (acc : List String) (x : String),
      x ∈ l.foldl (fun acc y => if y ∈ acc then acc else acc ++ [y]) acc ↔ x ∈ acc ∨ x ∈ l := by
  induction l with
  | nil => intro acc x; simp
  | cons a tl ih =>
    intro acc x
    by_cases ha : a ∈ acc
    · simp [ha, ih]
      constructor
      · rintro (h | h)
        · exact Or.inl h
        · exact Or.inr (Or.inr h)
      · rintro (h | h | h)
        · exact Or.inl h
        · rw [h]; exact Or.inl ha
        · exact Or.inr h
    · simp [ha, ih]
      constructor
      · rintro ((h | h) | h)
        · exact Or.inl h
        · exact Or.inr (Or.inl h)
        · exact Or.inr (Or.inr h)
      · rintro (h | h | h)
        · exact Or.inl (Or.inl h)
        · exact Or.inl (Or.inr h)
        · exact Or.inr h

theorem nodup_dedupAux (l : List String) :
    ∀ acc : List String, acc.Nodup →
      (l.foldl (fun acc y => if y ∈ acc then acc else acc ++ [y]) acc).Nodup := by
  induction l with
  | nil => intro acc h; simpa using h
  | cons a tl ih =>
    intro acc h
    by_cases ha : a ∈ acc
    · simpa [ha] using ih acc h
    · have hacc : (acc ++ [a]).Nodup := by
        simp [List.nodup_append, h, ha]
      simpa [ha] using ih (acc ++ [a]) hacc

theorem mem_dedupKeepFirst {x : String} {l : List String} :
    x ∈ dedupKeepFirst l ↔ x ∈ l := by
  unfold dedupKeepFirst
  rw [mem_dedupAux]
  simp

theorem nodup_dedupKeepFirst (l : List String) : (dedupKeepFirst l).Nodup :=
  nodup_dedupAux l [] List.nodup_nil

theorem dedupKeepFirst_ne_nil {l : List String} (h : l ≠ []) :
    dedupKeepFirst l ≠ [] := by
  cases l with
  | nil => simp at h
  | cons a tl =>
    intro hc
    have : a ∈ dedupKeepFirst (a :: tl) := mem_dedupKeepFirst.mpr (List.mem_cons_self _ _)
    rw [hc] at this
    simp at this

theorem count_dedupKeepFirst_of_mem {x : String} {l : List String} (h : x ∈ l) :
    (dedupKeepFirst l).count x = 1 :=
  List.count_eq_one_of_mem (nodup_dedupKeepFirst l) (mem_dedupKeepFirst.mpr h)

/-! ### Invariant preservation lemmas -/

theorem storeInv_dequeueFront {s : Store} (hs : storeInv s) :
    ∀ {r s2}, dequeueFront s = some (r, s2) → storeInv s2 := by
  induction s with
  | nil => intro r s2 h; simp [dequeueFront] at h
  | cons p rest ih =>
    intro r s2 h
    have hrest : storeInv rest := fun q hq => hs q (List.mem_cons_of_mem _ hq)
    have hp := hs p (List.mem_cons_self _ _)
    rcases hids : p.2 with _ | ⟨id, tl⟩
    · exact absurd hids hp.1
    · rw [dequeueFront, hids] at h
      rcases htl : tl.isEmpty with _ | _
      · simp [htl] at h
        rw [← h.2]
        intro q hq
        rw [List.mem_cons] at hq
        rcases hq with hq | hq
        · constructor
          · rw [hq]
            intro hnil
            simp only [] at hnil
            rw [hnil] at htl
            simp at htl
          · rw [hq]
            have hnd := hp.2
            rw [hids] at hnd
            exact hnd.of_cons
        · exact hrest q hq
      · simp [htl] at h
        rw [← h.2]
        exact hrest

theorem storeInv_dequeueFrontStore {s : Store} (hs : storeInv s) :
    storeInv (dequeueFrontStore s) := by
  unfold dequeueFrontStore
  rcases h : dequeueFront s with _ | ⟨r, s2⟩
  · exact hs
  · exact storeInv_dequeueFront hs h

theorem storeInv_returnToQueue {s : Store} {u x : String} (hs : storeInv s)
    (hx : x ∉ (lookupStore s u).getD []) : storeInv (returnToQueue s u x) := by
  unfold returnToQueue
  rcases h : lookupStore s u with _ | ids
  · intro q hq
    rw [List.mem_append] at hq
    rcases hq with hq | hq
    · exact hs q hq
    · simp at hq
      rw [hq]
      exact ⟨by simp, by simp⟩
  · rw [h] at hx
    simp at hx
    apply storeInv_updateStore hs (by simp)
    exact List.nodup_cons.mpr ⟨hx, (hs _ (lookupStore_mem h)).2⟩

theorem storeInv_addToFilteredIDs {s : Store} {u x : String} (hs : storeInv s) :
    storeInv (addToFilteredIDs s u x) := by
  unfold addToFilteredIDs
  rcases h : lookupStore s u with _ | ids
  · intro q hq
    rw [List.mem_append] at hq
    rcases hq with hq | hq
    · exact hs q hq
    · simp at hq
      rw [hq]
      exact ⟨by simp, by simp⟩
  · by_cases hmem : x ∈ ids
    · simpa [hmem] using hs
    · simp only [hmem, if_false]
      apply storeInv_updateStore hs (by simp)
      have hnd := (hs _ (lookupStore_mem h)).2
      simp [List.nodup_append, hnd, hmem]

theorem storeInv_removeFromPendingIDs {s : Store} {u x : String} (hs : storeInv s) :
    storeInv (removeFromPendingIDs s u x) := by
  unfold removeFromPendingIDs
  rcases h : lookupStore s u with _ | ids
  · exact hs
  · by_cases hmem : x ∈ ids
    · simp only [hmem, if_true]
      by_cases hemp : (ids.erase x).isEmpty
      · simpa [hemp] using storeInv_eraseKey hs
      · simp only [hemp, if_false]
        apply storeInv_updateStore hs
        · intro hc
          rw [hc] at hemp
          simp at hemp
        · exact ((hs _ (lookupStore_mem h)).2).erase x
    · simpa [hmem] using hs

theorem storeInv_mergeHarvested {data : List (String × List String)} :
    ∀ {store : Store}, storeInv store → (∀ p ∈ data, p.2 ≠ [] ∧ p.2.Nodup) →
      storeInv (mergeHarvested store data) := by
  induction data with
  | nil => intro store hs _; simpa [mergeHarvested] using hs
  | cons p rest ih =>
    intro store hs hdata
    have hp := hdata p (List.mem_cons_self _ _)
    have hrest : ∀ q ∈ rest, q.2 ≠ [] ∧ q.2.Nodup :=
      fun q hq => hdata q (List.mem_cons_of_mem _ hq)
    unfold mergeHarvested
    rw [List.foldl_cons]
    rcases h : lookupStore store p.1 with _ | existing
    · simp only [h]
      apply ih ?_ hrest
      intro q hq
      rw [List.mem_append] at hq
      rcases hq with hq | hq
      · exact hs q hq
      · simp at hq
        rw [hq]
        exact hp
    · simp only [h]
      apply ih ?_ hrest
      apply storeInv_updateStore hs
      · apply dedupKeepFirst_ne_nil
        have := (hs _ (lookupStore_mem h)).1
        simp [this]
      · exact nodup_dedupKeepFirst _

/-! ### Item membership lemmas -/

theorem itemInStore_iff {s : Store} {x : String} :
    itemInStore s x = true ↔ ∃ p ∈ s, x ∈ p.2 := by
  unfold itemInStore
  exact decide_eq_true_iff

theorem storesDisjoint_iff {s t : Store} :
    storesDisjoint s t = true ↔ ∀ p ∈ s, ∀ x ∈ p.2, itemInStore t x = false := by
  unfold storesDisjoint
  exact decide_eq_true_iff

theorem itemInStore_returnToQueue {s : Store} {u id x : String}
    (h : itemInStore (returnToQueue s u id) x = true) :
    itemInStore s x = true ∨ x = id := by
  rw [itemInStore_iff] at h
  obtain ⟨p, hp, hx⟩ := h
  unfold returnToQueue at hp
  rcases hl : lookupStore s u with _ | ids
  · rw [hl] at hp
    rw [List.mem_append] at hp
    rcases hp with hp | hp
    · exact Or.inl (itemInStore_iff.mpr ⟨p, hp, hx⟩)
    · simp at hp
      rw [hp] at hx
      simp at hx
      exact Or.inr hx
  · rw [hl] at hp
    rcases mem_updateStore hp with hp | hp
    · exact Or.inl (itemInStore_iff.mpr ⟨p, hp, hx⟩)
    · rw [hp] at hx
      simp at hx
      rcases hx with hx | hx
      · exact Or.inr hx
      · exact Or.inl (itemInStore_iff.mpr ⟨(u, ids), lookupStore_mem hl, hx⟩)

theorem itemInStore_addToFilteredIDs {s : Store} {u id x : String}
    (h : itemInStore (addToFilteredIDs s u id) x = true) :
    itemInStore s x = true ∨ x = id := by
  rw [itemInStore_iff] at h
  obtain ⟨p, hp, hx⟩ := h
  rcases hl : lookupStore s u with _ | ids
  · simp only [addToFilteredIDs, hl] at hp
    rw [List.mem_append] at hp
    rcases hp with hp | hp
    · exact Or.inl (itemInStore_iff.mpr ⟨p, hp, hx⟩)
    · simp at hp
      rw [hp] at hx
      simp at hx
      exact Or.inr hx
  · by_cases hmem : id ∈ ids
    · simp only [addToFilteredIDs, hl, hmem, if_true] at hp
      exact Or.inl (itemInStore_iff.mpr ⟨p, hp, hx⟩)
    · simp only [addToFilteredIDs, hl, hmem, if_false] at hp
      rcases mem_updateStore hp with hp | hp
      · exact Or.inl (itemInStore_iff.mpr ⟨p, hp, hx⟩)
      · rw [hp] at hx
        simp at hx
        rcases hx with hx | hx
        · exact Or.inl (itemInStore_iff.mpr ⟨(u, ids), lookupStore_mem hl, hx⟩)
        · exact Or.inr hx

/-! ### Validation lemmas -/

theorem itemInStore_dequeueFront :
    ∀ {s : Store} {r : String × String} {s2 : Store}, dequeueFront s = some (r, s2) →
      ∀ {x : String}, itemInStore s2 x = true → itemInStore s x = true := by
  intro s
  induction s with
  | nil => intro r s2 h; simp [dequeueFront] at h
  | cons p rest ih =>
    intro r s2 h x hx
    rcases hp2 : p.2 with _ | ⟨id, tl⟩
    · simp only [dequeueFront, hp2] at h
      rcases hrest : dequeueFront rest with _ | ⟨r0, rest2⟩
      · rw [hrest] at h
        simp at h
      · rw [hrest] at h
        simp at h
        rw [← h.2] at hx
        obtain ⟨q, hq, hxq⟩ := itemInStore_iff.mp hx
        rw [List.mem_cons] at hq
        rcases hq with hq | hq
        · rw [hq] at hxq
          rw [hp2] at hxq
          simp at hxq
        · have hxr : itemInStore rest x = true :=
            ih (by rw [hrest, h.1]) (itemInStore_iff.mpr ⟨q, hq, hxq⟩)
          obtain ⟨q2, hq2, hxq2⟩ := itemInStore_iff.mp hxr
          exact itemInStore_iff.mpr ⟨q2, List.mem_cons_of_mem _ hq2, hxq2⟩
    · simp only [dequeueFront, hp2] at h
      rcases htl : tl.isEmpty with _ | _
      · rw [htl] at h
        simp at h
        rw [← h.2] at hx
        obtain ⟨q, hq, hxq⟩ := itemInStore_iff.mp hx
        rw [List.mem_cons] at hq
        rcases hq with hq | hq
        · refine itemInStore_iff.mpr ⟨p, List.mem_cons_self _ _, ?_⟩
          rw [hq] at hxq
          simp at hxq
          rw [hp2]
          exact List.mem_cons_of_mem _ hxq
        · obtain hxr := itemInStore_iff.mpr ⟨q, List.mem_cons_of_mem _ hq, hxq⟩
          exact hxr
      · rw [htl] at h
        simp at h
        rw [← h.2] at hx
        obtain ⟨q, hq, hxq⟩ := itemInStore_iff.mp hx
        exact itemInStore_iff.mpr ⟨q, List.mem_cons_of_mem _ hq, hxq⟩

theorem itemInStore_dequeueFrontStore {s : Store} {x : String}
    (h : itemInStore (dequeueFrontStore s) x = true) : itemInStore s x = true := by
  unfold dequeueFrontStore at h
  rcases hd : dequeueFront s with _ | ⟨r, s2⟩
  · rwa [hd] at h
  · rw [hd] at h
    exact itemInStore_dequeueFront hd h

theorem storeInv_nil : storeInv ([] : Store) :=
  fun p hp => absurd hp (List.not_mem_nil p)

theorem storeInv_processUniquenessCheck (inA B filtered : Store) (wB wA : Bool)
    (hA : storeInv inA) (hB : storeInv B) (hfilt : storeInv filtered) :
    storeInv ((processUniquenessCheck inA B (DedupeOutcome.apiSuccess filtered) wB wA).1) ∧
    storeInv ((processUniquenessCheck inA B (DedupeOutcome.apiSuccess filtered) wB wA).2) := by
  unfold processUniquenessCheck
  by_cases h0 : totalIds inA = 0
  · simp only [h0, if_true]
    exact ⟨hA, hB⟩
  · simp only [h0, if_false]
    by_cases hfe : filtered.isEmpty = false
    · simp only [hfe, if_true]
      cases wB
      · simp only [Bool.false_eq_true, if_false]
        exact ⟨hA, hB⟩
      · simp only [if_true]
        cases wA
        · simp only [Bool.false_eq_true, if_false]
          exact ⟨hA, hfilt⟩
        · simp only [if_true]
          exact ⟨storeInv_nil, hfilt⟩
    · simp only [hfe, if_false]
      cases wB <;> cases wA <;>
        simp only [Bool.false_eq_true, if_true, if_false] <;>
        exact ⟨by first | exact hA | exact storeInv_nil,
               by first | exact hB | exact storeInv_nil⟩

theorem firstInvalidIn_eq_none_iff {o : String} {l : List String} :
    firstInvalidIn o l = none ↔ ∀ id ∈ l, isValidSteamId id = true := by
  induction l with
  | nil => simp [firstInvalidIn]
  | cons a tl ih =>
    by_cases ha : isValidSteamId a
    · simp [firstInvalidIn, ha, ih]
    · simp [firstInvalidIn, ha]

theorem firstInvalidIn_some_spec {o : String} {l : List String} {e : String × String}
    (h : firstInvalidIn o l = some e) :
    e.1 = o ∧ ∃ id ∈ l, isValidSteamId id = false ∧ e.2 = jsTrim id := by
  induction l with
  | nil => simp [firstInvalidIn] at h
  | cons a tl ih =>
    by_cases ha : isValidSteamId a
    · rw [firstInvalidIn, if_pos ha] at h
      obtain ⟨h1, id, hid, hv, ht⟩ := ih h
      exact ⟨h1, id, List.mem_cons_of_mem _ hid, hv, ht⟩
    · rw [firstInvalidIn, if_neg ha] at h
      have he : e = (o, jsTrim a) := by
        injection h with h
        exact h.symm
      rw [he]
      exact ⟨rfl, a, List.mem_cons_self _ _, by simpa using ha, rfl⟩

theorem firstInvalid_eq_none_iff {data : List (String × List String)} :
    firstInvalid data = none ↔ ∀ p ∈ data, ∀ id ∈ p.2, isValidSteamId id = true := by
  induction data with
  | nil => simp [firstInvalid]
  | cons p rest ih =>
    rcases h : firstInvalidIn p.1 p.2 with _ | e
    · have hall := firstInvalidIn_eq_none_iff.mp h
      simp only [firstInvalid, h]
      rw [ih]
      constructor
      · intro hrest q hq
        rw [List.mem_cons] at hq
        rcases hq with hq | hq
        · rw [hq]
          exact hall
        · exact hrest q hq
      · intro hcons q hq
        exact hcons q (List.mem_cons_of_mem _ hq)
    · simp only [firstInvalid, h]
      constructor
      · intro hc
        simp at hc
      · intro hall
        obtain ⟨_, id, hid, hv, _⟩ := firstInvalidIn_some_spec h
        have hvt := hall p (List.mem_cons_self _ _) id hid
        rw [hvt] at hv
        simp at hv

theorem firstInvalid_some_spec {data : List (String × List String)} {e : String × String}
    (h : firstInvalid data = some e) :
    ∃ ids, (e.1, ids) ∈ data ∧ ∃ id ∈ ids, isValidSteamId id = false ∧ e.2 = jsTrim id := by
  induction data with
  | nil => simp [firstInvalid] at h
  | cons p rest ih =>
    rcases hp : firstInvalidIn p.1 p.2 with _ | e2
    · simp only [firstInvalid, hp] at h
      obtain ⟨ids, hmem, rest2⟩ := ih h
      exact ⟨ids, List.mem_cons_of_mem _ hmem, rest2⟩
    · simp only [firstInvalid, hp] at h
      injection h with h
      rw [← h]
      obtain ⟨h1, id, hid, hv, ht⟩ := firstInvalidIn_some_spec hp
      refine ⟨p.2, ?_, id, hid, hv, ht⟩
      rw [h1]
      simp

/-! ### Single-payload merge lemma -/

theorem occCount_merge_single (s : Store) (owner id : String) :
    occCount (mergeHarvested s [(owner, [id])]) owner id = 1 := by
  unfold occCount
  rcases h : lookupStore s owner with _ | existing
  · simp only [mergeHarvested, List.foldl_cons, List.foldl_nil, h]
    rw [lookupStore_append_of_none h]
    simp [lookupStore]
  · simp only [mergeHarvested, List.foldl_cons, List.foldl_nil, h]
    rw [lookupStore_updateStore_self h]
    simp only [Option.getD_some]
    exact count_dedupKeepFirst_of_mem (by simp)

theorem lookupStore_returnToQueue_self (s : Store) (u id : String) :
    lookupStore (returnToQueue s u id) u = some (id :: (lookupStore s u).getD []) := by
  rcases h : lookupStore s u with _ | ids
  · simp only [returnToQueue, h]
    rw [lookupStore_append_of_none h]
    simp [lookupStore]
  · simp only [returnToQueue, h]
    rw [lookupStore_updateStore_self h]
    simp

/-! ### Claim theorems -/

/-- Claim C4 (confirmed): in the Stage-B classification worker, a
classification attempt that times out increments the consecutive-failure
counter by exactly one, and a successful classification response of any
kind (a profile the predicate passes or fails, or even a missing
profile record) resets the counter to zero. -/
theorem c4_timeout_counter (c : Nat) (sid : String) (p : Option Profile) :
    (fetchAndCheckProfile c FetchOutcome.timeout sid).2 = c + 1 ∧
    (fetchAndCheckProfile c (FetchOutcome.response p) sid).2 = 0 := by
  refine ⟨rfl, ?_⟩
  cases h : checkProfile sid p <;> simp [fetchAndCheckProfile, h]

/-- Claim C5 (confirmed): when an item fails all classification
attempts, the processQueue failure branch reinserts it at the head of
the Stage-B sequence of its owner (so it precedes every item enqueued
for that owner after it), and the Stage-C input store is untouched. -/
theorem c5_requeue_head (B C : Store) (u id err : String) :
    (processItemStep B C u id (ProcessOutcome.failed err)).2 = C ∧
    lookupStore (processItemStep B C u id (ProcessOutcome.failed err)).1 u =
      some (id :: (lookupStore B u).getD []) :=
  ⟨rfl, lookupStore_returnToQueue_self B u id⟩

/-- Claim C10 (confirmed): an identifier with surrounding whitespace
passes validation (which trims first), yet the value merged into the
Stage-A store is the untrimmed string: the accepted batch below leaves
an entry that does not itself match the 17-digit format and differs
from its trimmed form only by whitespace. -/
theorem c10_untrimmed_stored :
    (addHarvestedIds [] [("alice", [" 12345678901234567"])]).1 = Except.ok 1 ∧
    (addHarvestedIds [] [("alice", [" 12345678901234567"])]).2 =
      [("alice", [" 12345678901234567"])] ∧
    is17Digits " 12345678901234567" = false ∧
    jsTrim " 12345678901234567" = "12345678901234567" ∧
    is17Digits "12345678901234567" = true :=
  ⟨rfl, rfl, by decide, by decide, by decide⟩

/-- Claim C6 (confirmed): submitting the same one-owner one-item
payload twice through the ingestion endpoint leaves exactly one
occurrence of the item under that owner in the Stage-A store. -/
theorem c6_idempotent_merge (s : Store) (owner id : String)
    (h : isValidSteamId id = true) :
    occCount (addHarvestedIds (addHarvestedIds s [(owner, [id])]).2 [(owner, [id])]).2
      owner id = 1 := by
  have hnone : firstInvalid [(owner, [id])] = none := by
    simp [firstInvalid, firstInvalidIn, h]
  simp only [addHarvestedIds, hnone]
  exact occCount_merge_single _ owner id

theorem c6_witness :
    isValidSteamId "76561198000000001" = true ∧
    occCount (addHarvestedIds (addHarvestedIds [("bob", ["76561198000000002"])]
        [("bob", ["76561198000000001"])]).2 [("bob", ["76561198000000001"])]).2
      "bob" "76561198000000001" = 1 :=
  ⟨by decide, c6_idempotent_merge [("bob", ["76561198000000002"])] "bob"
    "76561198000000001" (by decide)⟩

/-- Claim C7 (confirmed): if any item of the batch fails the 17-digit
validation, the whole batch is rejected with an error naming the
offending value (in trimmed form, as the code reports it) and its
owner, and the Stage-A store is left unchanged. -/
theorem c7_reject_invalid_batch (store : Store) (data : List (String × List String))
    (owner badId : String) (ids : List String)
    (hmem : (owner, ids) ∈ data) (hin : badId ∈ ids)
    (hbad : isValidSteamId badId = false) :
    (addHarvestedIds store data).2 = store ∧
    ∃ o2 ids2 id2, (o2, ids2) ∈ data ∧ id2 ∈ ids2 ∧ isValidSteamId id2 = false ∧
      (addHarvestedIds store data).1 = Except.error (o2, jsTrim id2) := by
  have hne : firstInvalid data ≠ none := by
    intro hc
    have hv := firstInvalid_eq_none_iff.mp hc (owner, ids) hmem badId hin
    rw [hv] at hbad
    simp at hbad
  rcases he : firstInvalid data with _ | e
  · exact absurd he hne
  · obtain ⟨ids2, hmem2, id2, hin2, hv2, ht2⟩ := firstInvalid_some_spec he
    refine ⟨by simp [addHarvestedIds, he], e.1, ids2, id2, hmem2, hin2, hv2, ?_⟩
    simp [addHarvestedIds, he, ← ht2]

theorem c7_witness :
    ("alice", ["abc"]) ∈ [("alice", ["abc"])] ∧ "abc" ∈ ["abc"] ∧
    isValidSteamId "abc" = false ∧
    ((addHarvestedIds [("x", ["76561198000000009"])] [("alice", ["abc"])]).2 =
        [("x", ["76561198000000009"])] ∧
      ∃ o2 ids2 id2, (o2, ids2) ∈ [("alice", ["abc"])] ∧ id2 ∈ ids2 ∧
        isValidSteamId id2 = false ∧
        (addHarvestedIds [("x", ["76561198000000009"])] [("alice", ["abc"])]).1 =
          Except.error (o2, jsTrim id2)) :=
  ⟨by decide, by decide, by decide,
   c7_reject_invalid_batch [("x", ["76561198000000009"])] [("alice", ["abc"])]
     "alice" "abc" ["abc"] (by decide) (by decide) (by decide)⟩

/-- Claim C1 counterexample: an item pending in the Stage-B store
before a successful Stage-A run does not remain there: the run
overwrites the store wholesale with the filtered mapping, so the
enqueue is not a presence-preserving no-op merge. -/
theorem c1_counterexample :
    itemInStore [("bob", ["22222222222222222"])] "22222222222222222" = true ∧
    processUniquenessCheck [("alice", ["11111111111111111"])] [("bob", ["22222222222222222"])]
        (DedupeOutcome.apiSuccess [("alice", ["11111111111111111"])]) true true
      = ([], [("alice", ["11111111111111111"])]) ∧
    itemInStore (processUniquenessCheck [("alice", ["11111111111111111"])]
        [("bob", ["22222222222222222"])]
        (DedupeOutcome.apiSuccess [("alice", ["11111111111111111"])]) true true).2
      "22222222222222222" = false :=
  ⟨by decide, by decide, by decide⟩

/-- Claim C1 (corrected): on a successful Stage-A run the Stage-B
store is replaced wholesale by the confirmed-unique mapping (so every
confirmed-unique item is present afterwards, but items previously
pending there are discarded), and the Stage-A input store is cleared
only after this write succeeds: when the write fails the run aborts
with both stores unchanged. -/
theorem c1_amended_stage_a_writes (inA B filtered : Store) (wA : Bool)
    (hne : totalIds inA ≠ 0) (hf : filtered ≠ []) :
    processUniquenessCheck inA B (DedupeOutcome.apiSuccess filtered) true wA
      = ((if wA then [] else inA), filtered) ∧
    processUniquenessCheck inA B (DedupeOutcome.apiSuccess filtered) false wA
      = (inA, B) := by
  have hf2 : filtered.isEmpty = false := by
    cases filtered
    · simp at hf
    · simp
  unfold processUniquenessCheck
  simp [hne, hf2]

theorem c1_witness :
    totalIds [("alice", ["11111111111111111"])] ≠ 0 ∧
    ([("alice", ["11111111111111111"])] : Store) ≠ [] ∧
    (processUniquenessCheck [("alice", ["11111111111111111"])] [("bob", ["22222222222222222"])]
        (DedupeOutcome.apiSuccess [("alice", ["11111111111111111"])]) true true
      = ([], [("alice", ["11111111111111111"])]) ∧
     processUniquenessCheck [("alice", ["11111111111111111"])] [("bob", ["22222222222222222"])]
        (DedupeOutcome.apiSuccess [("alice", ["11111111111111111"])]) false true
      = ([("alice", ["11111111111111111"])], [("bob", ["22222222222222222"])])) :=
  ⟨by decide, by decide,
   c1_amended_stage_a_writes [("alice", ["11111111111111111"])]
     [("bob", ["22222222222222222"])] [("alice", ["11111111111111111"])] true
     (by decide) (by decide)⟩

/-- Claim C2 counterexample: two normal (non-crash) violations of the
at-most-one-store property.  First, during a successful Stage-A run, at
the instant after the Stage-B write completes and before the Stage-A
clear completes, the confirmed-unique item is observable in both the
Stage-A and the Stage-B input stores.  Second, the ingestion endpoint
merges into the Stage-A store without consulting the Stage-B store, so
re-submitting an identifier still pending in the Stage-B store leaves
it in both stores even between completed operations. -/
theorem c2_counterexample :
    itemInStore ((processUniquenessCheckTrace [("alice", ["33333333333333333"])] []
        (DedupeOutcome.apiSuccess [("alice", ["33333333333333333"])]) true true).getD 1
        ([], [])).1 "33333333333333333" = true ∧
    itemInStore ((processUniquenessCheckTrace [("alice", ["33333333333333333"])] []
        (DedupeOutcome.apiSuccess [("alice", ["33333333333333333"])]) true true).getD 1
        ([], [])).2 "33333333333333333" = true ∧
    itemInStore [("alice", ["33333333333333333"])] "33333333333333333" = true ∧
    (addHarvestedIds [] [("alice", ["33333333333333333"])]).2 =
      [("alice", ["33333333333333333"])] ∧
    itemInStore (addHarvestedIds [] [("alice", ["33333333333333333"])]).2
      "33333333333333333" = true :=
  ⟨by decide, by decide, by decide, by decide, by decide⟩

/-- Claim C2 (corrected): the at-most-one-store property fails in two
normal-operation ways exhibited by the counterexample (the window inside
a Stage-A run between the Stage-B write and the Stage-A clear, and the
ingestion of an identifier still pending in the Stage-B store).  What
does hold: a completed successful Stage-A run ends with an empty Stage-A
store (hence disjoint from the Stage-B store), and the Stage-B store
mutations of the filter worker — the dequeue and the per-item routing of
an in-flight item held in neither store — preserve disjointness of the
Stage-B and Stage-C input stores. -/
theorem c2_amended_disjointness (inA B C filtered : Store) (u id : String)
    (outcome : ProcessOutcome)
    (hA : totalIds inA ≠ 0) (hf : filtered ≠ [])
    (hBC : storesDisjoint B C = true)
    (hB : itemInStore B id = false) (hC : itemInStore C id = false) :
    (processUniquenessCheck inA B (DedupeOutcome.apiSuccess filtered) true true).1 = [] ∧
    storesDisjoint (processUniquenessCheck inA B (DedupeOutcome.apiSuccess filtered) true true).1
      (processUniquenessCheck inA B (DedupeOutcome.apiSuccess filtered) true true).2 = true ∧
    storesDisjoint (dequeueFrontStore B) C = true ∧
    storesDisjoint (processItemStep B C u id outcome).1
      (processItemStep B C u id outcome).2 = true := by
  have hf2 : filtered.isEmpty = false := by
    cases filtered
    · simp at hf
    · simp
  have hres : processUniquenessCheck inA B (DedupeOutcome.apiSuccess filtered) true true
      = ([], filtered) := by
    unfold processUniquenessCheck
    simp [hA, hf2]
  refine ⟨by rw [hres], ?_, ?_, ?_⟩
  · rw [hres]
    rw [storesDisjoint_iff]
    intro p hp
    exact absurd hp (List.not_mem_nil p)
  · rw [storesDisjoint_iff]
    intro p hp x hx
    have hxB : itemInStore B x = true :=
      itemInStore_dequeueFrontStore (itemInStore_iff.mpr ⟨p, hp, hx⟩)
    obtain ⟨q, hq, hxq⟩ := itemInStore_iff.mp hxB
    exact storesDisjoint_iff.mp hBC q hq x hxq
  · cases outcome with
    | failed msg =>
      rw [storesDisjoint_iff]
      intro p hp x hx
      have hin : itemInStore (returnToQueue B u id) x = true :=
        itemInStore_iff.mpr ⟨p, hp, hx⟩
      rcases itemInStore_returnToQueue hin with hxB | hxid
      · obtain ⟨q, hq, hxq⟩ := itemInStore_iff.mp hxB
        exact storesDisjoint_iff.mp hBC q hq x hxq
      · rw [hxid]
        exact hC
    | succeeded passed =>
      cases passed with
      | false => exact hBC
      | true =>
        rw [storesDisjoint_iff]
        intro p hp x hx
        have hxB : itemInStore B x = true := itemInStore_iff.mpr ⟨p, hp, hx⟩
        rcases hCx : itemInStore (addToFilteredIDs C u id) x with _ | _
        · exact hCx
        · rcases itemInStore_addToFilteredIDs hCx with hxC | hxid
          · obtain ⟨q, hq, hxq⟩ := itemInStore_iff.mp hxB
            have := storesDisjoint_iff.mp hBC q hq x hxq
            rw [this] at hxC
            simp at hxC
          · rw [hxid] at hxB
            rw [hxB] at hB
            simp at hB

theorem c2_witness :
    totalIds [("alice", ["33333333333333333"])] ≠ 0 ∧
    storesDisjoint [("bob", ["44444444444444444"])] [("carol", ["55555555555555555"])] = true ∧
    ((processUniquenessCheck [("alice", ["33333333333333333"])] [("bob", ["44444444444444444"])]
        (DedupeOutcome.apiSuccess [("alice", ["33333333333333333"])]) true true).1 = [] ∧
     storesDisjoint
       (processUniquenessCheck [("alice", ["33333333333333333"])] [("bob", ["44444444444444444"])]
         (DedupeOutcome.apiSuccess [("alice", ["33333333333333333"])]) true true).1
       (processUniquenessCheck [("alice", ["33333333333333333"])] [("bob", ["44444444444444444"])]
         (DedupeOutcome.apiSuccess [("alice", ["33333333333333333"])]) true true).2 = true ∧
     storesDisjoint (dequeueFrontStore [("bob", ["44444444444444444"])])
       [("carol", ["55555555555555555"])] = true ∧
     storesDisjoint
       (processItemStep [("bob", ["44444444444444444"])] [("carol", ["55555555555555555"])]
         "bob" "66666666666666666" (ProcessOutcome.failed "Timeout")).1
       (processItemStep [("bob", ["44444444444444444"])] [("carol", ["55555555555555555"])]
         "bob" "66666666666666666" (ProcessOutcome.failed "Timeout")).2 = true) :=
  ⟨by decide, by decide,
   c2_amended_disjointness [("alice", ["33333333333333333"])] [("bob", ["44444444444444444"])]
     [("carol", ["55555555555555555"])] [("alice", ["33333333333333333"])]
     "bob" "66666666666666666" (ProcessOutcome.failed "Timeout")
     (by decide) (by decide) (by decide) (by decide) (by decide)⟩

/-- Claim C3 counterexample: ingestion merge of a fresh owner stores
the submitted list verbatim, so a payload with a repeated item creates a
duplicate and a payload with an empty list creates an empty owner;
returnToQueue unshifts without a membership check, duplicating an item
already present; and the Stage-A repopulation installs the authority
filtered mapping unvalidated, so an authority response with a repeated
item puts a non-invariant mapping into the Stage-B store.  All four
violate the store invariant starting from invariant-satisfying stores. -/
theorem c3_counterexample :
    storeInv ([] : Store) ∧
    ¬ storeInv (mergeHarvested [] [("alice", ["44444444444444444", "44444444444444444"])]) ∧
    ¬ storeInv (mergeHarvested [] [("bob", ([] : List String))]) ∧
    storeInv [("carol", ["55555555555555555"])] ∧
    ¬ storeInv (returnToQueue [("carol", ["55555555555555555"])] "carol" "55555555555555555") ∧
    storeInv [("dave", ["66666666666666666"])] ∧
    ¬ storeInv ((processUniquenessCheck [("dave", ["66666666666666666"])] []
        (DedupeOutcome.apiSuccess [("erin", ["88888888888888888", "88888888888888888"])])
        true true).2) :=
  ⟨by decide, by decide, by decide, by decide, by decide, by decide, by decide⟩

/-- Claim C3 (corrected): dequeueFront, Stage-C enqueue and remove
preserve the store invariant unconditionally; ingestion merge preserves
it provided every list of the payload is non-empty and duplicate-free;
requeueFront preserves it provided the requeued item is not already in
the sequence of its owner; and the Stage-A repopulation (the wholesale
write of the authority filtered mapping over the Stage-B store,
together with the clearing of the Stage-A store) preserves it provided
the filtered mapping itself satisfies the invariant, which the code
does not validate. -/
theorem c3_amended_invariant_preservation (sA sB sC filtered : Store)
    (data : List (String × List String)) (u x : String) (wB wA : Bool)
    (hA : storeInv sA) (hB : storeInv sB) (hC : storeInv sC)
    (hdata : ∀ p ∈ data, p.2 ≠ [] ∧ p.2.Nodup)
    (hx : x ∉ (lookupStore sB u).getD [])
    (hfilt : storeInv filtered) :
    storeInv (mergeHarvested sA data) ∧
    storeInv (dequeueFrontStore sB) ∧
    storeInv (returnToQueue sB u x) ∧
    storeInv (addToFilteredIDs sC u x) ∧
    storeInv (removeFromPendingIDs sC u x) ∧
    storeInv ((processUniquenessCheck sA sB (DedupeOutcome.apiSuccess filtered) wB wA).1) ∧
    storeInv ((processUniquenessCheck sA sB (DedupeOutcome.apiSuccess filtered) wB wA).2) :=
  ⟨storeInv_mergeHarvested hA hdata, storeInv_dequeueFrontStore hB,
   storeInv_returnToQueue hB hx, storeInv_addToFilteredIDs hC,
   storeInv_removeFromPendingIDs hC,
   (storeInv_processUniquenessCheck sA sB filtered wB wA hA hB hfilt).1,
   (storeInv_processUniquenessCheck sA sB filtered wB wA hA hB hfilt).2⟩

theorem c3_witness :
    storeInv [("alice", ["11111111111111111", "22222222222222222"])] ∧
    (∀ p ∈ [("dave", ["77777777777777777"])], p.2 ≠ [] ∧ p.2.Nodup) ∧
    "99999999999999999" ∉ (lookupStore [("alice", ["11111111111111111", "22222222222222222"])]
      "alice").getD [] ∧
    storeInv [("erin", ["88888888888888888"])] ∧
    (storeInv (mergeHarvested [("alice", ["11111111111111111", "22222222222222222"])]
        [("dave", ["77777777777777777"])]) ∧
     storeInv (dequeueFrontStore [("alice", ["11111111111111111", "22222222222222222"])]) ∧
     storeInv (returnToQueue [("alice", ["11111111111111111", "22222222222222222"])]
        "alice" "99999999999999999") ∧
     storeInv (addToFilteredIDs [("alice", ["11111111111111111", "22222222222222222"])]
        "alice" "99999999999999999") ∧
     storeInv (removeFromPendingIDs [("alice", ["11111111111111111", "22222222222222222"])]
        "alice" "99999999999999999") ∧
     storeInv ((processUniquenessCheck [("alice", ["11111111111111111", "22222222222222222"])]
        [("alice", ["11111111111111111", "22222222222222222"])]
        (DedupeOutcome.apiSuccess [("erin", ["88888888888888888"])]) true true).1) ∧
     storeInv ((processUniquenessCheck [("alice", ["11111111111111111", "22222222222222222"])]
        [("alice", ["11111111111111111", "22222222222222222"])]
        (DedupeOutcome.apiSuccess [("erin", ["88888888888888888"])]) true true).2)) :=
  ⟨by decide, by decide, by decide, by decide,
   c3_amended_invariant_preservation
     [("alice", ["11111111111111111", "22222222222222222"])]
     [("alice", ["11111111111111111", "22222222222222222"])]
     [("alice", ["11111111111111111", "22222222222222222"])]
     [("erin", ["88888888888888888"])]
     [("dave", ["77777777777777777"])] "alice" "99999999999999999" true true
     (by decide) (by decide) (by decide) (by decide) (by decide) (by decide)⟩

/-- Claim C9 counterexample: the Stage-A retry loop
(callDjangoAPIWithRetries) does not short-circuit on an authentication
failure: after a 401-status first attempt it performs a second attempt
(which here succeeds), contradicting that no further attempts are made. -/
theorem c9_counterexample :
    cexDjangoOutcomes 1 = CallOutcome.httpError 401 "Invalid API key" ∧
    callDjangoAPIWithRetries 3 cexDjangoOutcomes = some ("resp", 2) :=
  ⟨rfl, rfl⟩

/-- Claim C9 (corrected): of the four bounded-retry loops, only the
Stage-C submitter loop (processID) treats the authentication-failure
condition (HTTP 401) as non-retryable, stopping after the failing
attempt without submitting; the Stage-A deduplication loop
(callDjangoAPIWithRetries) and the Stage-B mark-processed loop
(markSteamIdProcessedWithRetries) retry a 401-status attempt like any
other failure, and the Stage-B classification loop
(processSteamIDWithRetries) retries every failed attempt, inspecting no
error condition at all. -/
theorem c9_amended_auth_short_circuit (outs : Nat → SubmitOutcome)
    (outsA : Nat → CallOutcome) (outsB : Nat → FetchOutcome)
    (outsM : Nat → MarkOutcome) (m mA mB mM c0 : Nat)
    (r body body2 sid : String) (p2 : Option Profile) (r2 : CheckResult)
    (created : Bool)
    (h1 : outs 1 = SubmitOutcome.httpError 401) (hm : 1 ≤ m)
    (h2 : outsA 1 = CallOutcome.httpError 401 body) (h3 : outsA 2 = CallOutcome.ok r)
    (hmA : 2 ≤ mA)
    (h4 : outsB 1 = FetchOutcome.timeout) (h5 : outsB 2 = FetchOutcome.response p2)
    (h6 : checkProfile sid p2 = Except.ok r2) (hmB : 2 ≤ mB)
    (h7 : outsM 1 = MarkOutcome.httpError 401 body2) (h8 : outsM 2 = MarkOutcome.ok created)
    (hmM : 2 ≤ mM) :
    processID m outs = (1, false) ∧
    callDjangoAPIWithRetries mA outsA = some (r, 2) ∧
    processSteamIDWithRetries mB sid outsB c0 = (some r2, 2, 0) ∧
    markSteamIdProcessedWithRetries mM outsM = (true, 2) := by
  refine ⟨?_, ?_, ?_, ?_⟩
  · obtain ⟨n, rfl⟩ : ∃ n, m = n + 1 := ⟨m - 1, by omega⟩
    simp [processID, processIDLoop, h1]
  · obtain ⟨n, rfl⟩ : ∃ n, mA = n + 2 := ⟨mA - 2, by omega⟩
    simp [callDjangoAPIWithRetries, djangoRetryLoop, h2, h3]
  · obtain ⟨n, rfl⟩ : ∃ n, mB = n + 2 := ⟨mB - 2, by omega⟩
    simp [processSteamIDWithRetries, processSteamRetryLoop, h4, h5,
      fetchAndCheckProfile, h6]
  · obtain ⟨n, rfl⟩ : ∃ n, mM = n + 2 := ⟨mM - 2, by omega⟩
    simp [markSteamIdProcessedWithRetries, markRetryLoop, h7, h8]

theorem c9_witness :
    cexSubmitOutcomes 1 = SubmitOutcome.httpError 401 ∧
    checkProfile "76561198000000005" (some
      { medals := some [874, 900, 901],
        commendation := some { cmd_friendly := some 0, cmd_teaching := some 0,
                               cmd_leader := some 0 } })
      = Except.ok { passedChecks := true, filterReason := none } ∧
    (processID 3 cexSubmitOutcomes = (1, false) ∧
     callDjangoAPIWithRetries 3 cexDjangoOutcomes = some ("resp", 2) ∧
     processSteamIDWithRetries 3 "76561198000000005" cexFetchOutcomes 0 =
       (some { passedChecks := true, filterReason := none }, 2, 0) ∧
     markSteamIdProcessedWithRetries 3 cexMarkOutcomes = (true, 2)) :=
  ⟨rfl, rfl, c9_amended_auth_short_circuit cexSubmitOutcomes cexDjangoOutcomes
    cexFetchOutcomes cexMarkOutcomes 3 3 3 3 0 "resp" "Invalid API key" "Invalid API key"
    "76561198000000005"
    (some { medals := some [874, 900, 901],
            commendation := some { cmd_friendly := some 0, cmd_teaching := some 0,
                                   cmd_leader := some 0 } })
    { passedChecks := true, filterReason := none } true
    rfl (by omega) rfl rfl (by omega) rfl rfl rfl (by omega) rfl rfl (by omega)⟩

theorem calculateNextBreakPoint_bounds (cfg : FilterConfig) (r : ℚ)
    (hrb : r < 1)
    (hc : cfg.requestsBeforeBreakMin ≤ cfg.requestsBeforeBreakMax) :
    cfg.requestsBeforeBreakMin ≤ calculateNextBreakPoint cfg r ∧
    calculateNextBreakPoint cfg r ≤ cfg.requestsBeforeBreakMax := by
  unfold calculateNextBreakPoint
  constructor
  · exact Nat.le_add_right _ _
  · have hcast : (cfg.requestsBeforeBreakMax : ℚ) - (cfg.requestsBeforeBreakMin : ℚ)
        = ((cfg.requestsBeforeBreakMax - cfg.requestsBeforeBreakMin : ℕ) : ℚ) := by
      push_cast [hc]
      ring
    rw [hcast]
    have hmul : r * ((cfg.requestsBeforeBreakMax - cfg.requestsBeforeBreakMin : ℕ) : ℚ)
        ≤ ((cfg.requestsBeforeBreakMax - cfg.requestsBeforeBreakMin : ℕ) : ℚ) :=
      mul_le_of_le_one_left (by positivity) (le_of_lt hrb)
    have hfl : ⌊r * ((cfg.requestsBeforeBreakMax - cfg.requestsBeforeBreakMin : ℕ) : ℚ)⌋
        ≤ ((cfg.requestsBeforeBreakMax - cfg.requestsBeforeBreakMin : ℕ) : ℤ) := by
      calc ⌊r * ((cfg.requestsBeforeBreakMax - cfg.requestsBeforeBreakMin : ℕ) : ℚ)⌋
          ≤ ⌊((cfg.requestsBeforeBreakMax - cfg.requestsBeforeBreakMin : ℕ) : ℚ)⌋ :=
            Int.floor_le_floor hmul
        _ = ((cfg.requestsBeforeBreakMax - cfg.requestsBeforeBreakMin : ℕ) : ℤ) :=
            Int.floor_natCast _
    have htn : (⌊r * ((cfg.requestsBeforeBreakMax - cfg.requestsBeforeBreakMin : ℕ) : ℚ)⌋).toNat
        ≤ cfg.requestsBeforeBreakMax - cfg.requestsBeforeBreakMin :=
      Int.toNat_le.mpr hfl
    omega

/-- Claim C8 (confirmed): whenever requestCount has reached
nextBreakThreshold, the first action of the iteration (before the
dequeue, which comes last) is a scheduled break sleep whose duration
lies in the configured break interval, after which nextBreakThreshold
equals requestCount plus a value in the configured count interval; the
quantification over all random draws in the unit interval expresses the
uniform draw of the source. -/
theorem c8_scheduled_break (cfg : FilterConfig) (st : WorkerCounters) (r1 r2 : ℚ)
    (hgate : st.nextBreakAfter ≤ st.requestCount)
    (hr1a : 0 ≤ r1) (hr1b : r1 < 1) (hr2a : 0 ≤ r2) (hr2b : r2 < 1)
    (hd : cfg.breakDurationMin ≤ cfg.breakDurationMax)
    (hc : cfg.requestsBeforeBreakMin ≤ cfg.requestsBeforeBreakMax) :
    ∃ d v,
      (processQueueIterationHead cfg st r1 r2).1.head? =
        some (WorkerAction.scheduledBreakSleep d) ∧
      cfg.breakDurationMin ≤ d ∧ d ≤ cfg.breakDurationMax ∧
      (processQueueIterationHead cfg st r1 r2).2.nextBreakAfter = st.requestCount + v ∧
      cfg.requestsBeforeBreakMin ≤ v ∧ v ≤ cfg.requestsBeforeBreakMax ∧
      (processQueueIterationHead cfg st r1 r2).1.getLast? = some WorkerAction.dequeueNext := by
  refine ⟨getRandomDelay cfg.breakDurationMin cfg.breakDurationMax r1,
          calculateNextBreakPoint cfg r2, ?_, ?_, ?_, ?_, ?_, ?_, ?_⟩
  · unfold processQueueIterationHead takeScheduledBreak
    simp [hgate]
  · unfold getRandomDelay
    have : 0 ≤ r1 * (cfg.breakDurationMax - cfg.breakDurationMin) :=
      mul_nonneg hr1a (by linarith)
    linarith
  · unfold getRandomDelay
    have : r1 * (cfg.breakDurationMax - cfg.breakDurationMin)
        ≤ cfg.breakDurationMax - cfg.breakDurationMin :=
      mul_le_of_le_one_left (by linarith) (le_of_lt hr1b)
    linarith
  · unfold processQueueIterationHead takeScheduledBreak
    by_cases hrec : cfg.maxConsecutiveTimeouts ≤ st.consecutiveTimeouts
    · simp [hgate, hrec]
    · simp [hgate, hrec]
  · exact (calculateNextBreakPoint_bounds cfg r2 hr2b hc).1
  · exact (calculateNextBreakPoint_bounds cfg r2 hr2b hc).2
  · unfold processQueueIterationHead takeScheduledBreak
    by_cases hrec : cfg.maxConsecutiveTimeouts ≤ st.consecutiveTimeouts
    · simp [hgate, hrec, List.getLast?_concat]
    · simp [hgate, hrec, List.getLast?_concat]

theorem c8_witness :
    (100 : Nat) ≤ 100 ∧
    (∃ d v,
      (processQueueIterationHead defaultFilterConfig ⟨100, 100, 0⟩ (1/2) (1/2)).1.head? =
        some (WorkerAction.scheduledBreakSleep d) ∧
      defaultFilterConfig.breakDurationMin ≤ d ∧ d ≤ defaultFilterConfig.breakDurationMax ∧
      (processQueueIterationHead defaultFilterConfig ⟨100, 100, 0⟩ (1/2) (1/2)).2.nextBreakAfter
        = (100 : Nat) + v ∧
      defaultFilterConfig.requestsBeforeBreakMin ≤ v ∧
      v ≤ defaultFilterConfig.requestsBeforeBreakMax ∧
      (processQueueIterationHead defaultFilterConfig ⟨100, 100, 0⟩ (1/2) (1/2)).1.getLast? =
        some WorkerAction.dequeueNext) :=
  ⟨by omega,
   c8_scheduled_break defaultFilterConfig ⟨100, 100, 0⟩ (1/2) (1/2)
     (by norm_num) (by norm_num) (by norm_num) (by norm_num) (by norm_num)
     (by norm_num [defaultFilterConfig]) (by norm_num [defaultFilterConfig])⟩
